import Mathlib

/- Shallow embedding of the admission-history simulator
(`generate_admissions` in python_scripts/data_generator.py).

Dates are modelled as day numbers with day 0 = 2023-01-01, the start of
the generation window; every datetime the script manipulates is at
midnight, so datetime subtraction's `.days` is exact integer day
difference.  The seeded pseudo-random source is modelled as an explicit
stream of per-iteration draw records (`Draws`): every raw value the
iteration consumes from the global generator appears as one field.
Draws standing for `random.random()` are rationals in [0, 1); draws
standing for `random.randint(a, b)` / `df.sample(1)` / `random.choice`
appear as an unbounded natural reduced modulo the size of the sampled
range, and draws standing for strings fabricated by faker appear as
opaque string fields.  Fallible selections (pandas `.sample(1)` and
`random.choice`, which raise on an empty population) are modelled in
the `Except String` monad. -/

namespace HealthGen

/-- One row of the patients input frame; only the two columns
`generate_admissions` reads. -/
structure Patient where
  patient_id : String
  date_of_birth : Int
deriving Repr, DecidableEq

/-- One row of the hospitals input frame; only the column
`generate_admissions` reads. -/
structure Hospital where
  hospital_id : String
deriving Repr, DecidableEq

/-- One row of the departments input frame; only the two columns
`generate_admissions` reads. -/
structure Department where
  department_id : String
  hospital_id : String
deriving Repr, DecidableEq

/-- One entry of the CONDITIONS reference table (data_generator.py
lines 30-41).  `risk` is exact where the script uses a float literal;
`los_mean` and `los_std` only parameterise the normal draw, whose
truncated outcome is itself a field of `Draws`. -/
structure ConditionInfo where
  name : String
  risk : ℚ
  los_mean : ℚ
  los_std : ℚ
deriving Repr, DecidableEq

/-- CONDITIONS, in dict insertion order (keys order of line 188's
`list(CONDITIONS.keys())`). -/
def CONDITIONS : List (String × ConditionInfo) :=
  [ ("C10001", ⟨"Diabetes Mellitus Type 2", 0.3, 4, 2⟩),
    ("C10002", ⟨"Hypertension", 0.15, 3, 1⟩),
    ("C10003", ⟨"Congestive Heart Failure", 0.45, 7, 3⟩),
    ("C10004", ⟨"COPD", 0.40, 6, 2⟩),
    ("C10005", ⟨"Acute Myocardial Infarction", 0.35, 8, 3⟩),
    ("C10006", ⟨"Pneumonia", 0.38, 5, 2⟩),
    ("C10007", ⟨"Chronic Kidney Disease", 0.42, 6, 3⟩),
    ("C10008", ⟨"Sepsis", 0.50, 10, 4⟩),
    ("C10009", ⟨"Stroke", 0.40, 9, 4⟩),
    ("C10010", ⟨"Atrial Fibrillation", 0.28, 4, 2⟩) ]

/-- ADMISSION_TYPES (line 24). -/
def ADMISSION_TYPES : List String :=
  ["Emergency", "Urgent", "Elective", "Transfer"]

/-- ADMISSION_SOURCES (line 25). -/
def ADMISSION_SOURCES : List String :=
  ["Emergency Room", "Physician Referral", "Transfer from Other", "Clinic Referral"]

/-- DISCHARGE_DISPOSITIONS (line 26). -/
def DISCHARGE_DISPOSITIONS : List String :=
  ["Home", "Home Health Service", "Skilled Nursing Facility",
   "Rehab Facility", "Expired", "Left AMA"]

/-- One element of a patient's history list: the dict
`{'admission_id': ..., 'discharge_date': ...}` appended at lines
247-250. -/
structure HistEntry where
  admission_id : String
  discharge_date : Nat
deriving Repr, DecidableEq

/-- The per-patient history map `patient_admissions` (line 176): dict
semantics as an association list with unique keys. -/
abbrev History := List (String × List HistEntry)

/-- Line 176: `{pid: [] for pid in patients_df['patient_id']}`; a dict
comprehension keeps one entry per key, located at the key's first
occurrence. -/
def initHistory (patients : List Patient) : History :=
  patients.foldl
    (fun m p => if (m.lookup p.patient_id).isSome then m else m ++ [(p.patient_id, [])]) []

/-- Dict read `patient_admissions[pid]` (line 199).  The key is always
present in a run (the dict is initialised over every patient id and the
patient is sampled from the same frame), so the unreachable missing-key
branch defaults to the empty list rather than modelling KeyError. -/
def histAt (h : History) (pid : String) : List HistEntry :=
  (h.lookup pid).getD []

/-- Dict update `patient_admissions[pid].append(e)` (lines 247-250):
the unique entry keyed by `pid` gets `e` appended; every other entry is
untouched. -/
def updateHist : History → String → HistEntry → History
  | [], _, _ => []
  | (k, v) :: t, pid, e =>
      (if k = pid then (k, v ++ [e]) else (k, v)) :: updateHist t pid e

/-- Uniform selection of one element (`df.sample(1)` at lines 180-182,
`random.choice` elsewhere): the draw index is reduced modulo the
population size; an empty population is an error, exactly as pandas and
the random module raise on an empty selection. -/
def sample1 (l : List α) (idx : Nat) : Except String α :=
  match l with
  | [] => .error ("cannot select from an empty population")
  | x :: xs => .ok ((x :: xs).getD (idx % (x :: xs).length) x)

/-- The result triple of the readmission computation. -/
structure ReadmissionInfo where
  readmission_flag : Nat
  readmission_30day : Nat
  previous_admission_id : Option String
deriving Repr, DecidableEq

/-- Python `max(previous_admissions, key=lambda x: x['discharge_date'])`
(line 205): the first element carrying the maximal discharge date (a
later element replaces the running maximum only when strictly
greater). -/
def maxByDischarge : List HistEntry → Option HistEntry
  | [] => none
  | a :: as =>
      some (as.foldl (fun best x => if best.discharge_date < x.discharge_date then x else best) a)

/-- Lines 200-214: the readmission flags and link computed from the
already-filtered earlier-discharge history and the admission date.
`maxByDischarge` returns none exactly when the filtered list is empty,
matching the `if previous_admissions:` guard. -/
def computeReadmission (previous_admissions : List HistEntry) (admission_date : Nat) :
    ReadmissionInfo :=
  match maxByDischarge previous_admissions with
  | none => ⟨0, 0, none⟩
  | some last_admission =>
      let days_since_last := admission_date - last_admission.discharge_date
      if days_since_last ≤ 30 then ⟨1, 1, some last_admission.admission_id⟩
      else if days_since_last ≤ 90 then ⟨1, 0, some last_admission.admission_id⟩
      else ⟨0, 0, none⟩

/-- The raw random values one loop iteration consumes (see the header
comment for the correspondence). -/
structure Draws where
  patientIdx : Nat
  hospitalIdx : Nat
  deptIdx : Nat
  admOffset : Nat
  condIdx : Nat
  losSample : Int
  icuRoll : ℚ
  icuDaysRoll : Nat
  mortRoll : ℚ
  mortOffset : Nat
  admTypeIdx : Nat
  admSrcIdx : Nat
  dispIdx : Nat
  secondaryDiagnoses : String
  attendingName : String

/-- One generated admission record (the dict built at lines 223-244). -/
structure Admission where
  admission_id : String
  patient_id : String
  hospital_id : String
  department_id : String
  admission_date : Nat
  discharge_date : Nat
  admission_type : String
  admission_source : String
  primary_diagnosis_id : String
  secondary_diagnoses : String
  attending_physician : String
  length_of_stay_days : Nat
  patient_age_at_admission : Int
  readmission_flag : Nat
  readmission_within_30days : Nat
  previous_admission_id : Option String
  discharge_disposition : String
  mortality_flag : Nat
  icu_stay_flag : Nat
  icu_days : Nat
deriving Repr, DecidableEq

/-- The pure part of one loop iteration (lines 179-250) once patient,
hospital, department and condition have been selected: builds the
admission record and the updated history.  `(end_date - start_date).days`
is 730, so line 185's randint draws from 0..730; `max(1, int(normal))`
is `(max 1 losSample).toNat`; Python `//` is floor division, hence
`Int.fdiv` for the age and `Nat` division for `los // 2`. -/
def buildAdmission (i : Nat) (patient : Patient) (hospital : Hospital) (dept : Department)
    (condition_id : String) (condition_info : ConditionInfo) (history : History) (d : Draws) :
    Admission × History :=
  let admission_id := "A" ++ toString (20001 + i)
  let admission_date := d.admOffset % 731
  let los : Nat := (max 1 d.losSample).toNat
  let discharge_date := admission_date + los
  let age : Int := Int.fdiv ((admission_date : Int) - patient.date_of_birth) 365
  let previous_admissions :=
    (histAt history patient.patient_id).filter (fun a => a.discharge_date < admission_date)
  let r := computeReadmission previous_admissions admission_date
  let icu_flag : Nat := if d.icuRoll < condition_info.risk * 0.5 then 1 else 0
  let icu_days : Nat := if icu_flag ≠ 0 then 1 + d.icuDaysRoll % (max 1 (los / 2)) else 0
  let mortality_flag : Nat := if d.mortRoll < 0.02 then 1 else 0
  let final_discharge :=
    if mortality_flag ≠ 0 then admission_date + (1 + d.mortOffset % 5) else discharge_date
  let adm : Admission :=
    { admission_id := admission_id
      patient_id := patient.patient_id
      hospital_id := hospital.hospital_id
      department_id := dept.department_id
      admission_date := admission_date
      discharge_date := final_discharge
      admission_type := ADMISSION_TYPES.getD (d.admTypeIdx % ADMISSION_TYPES.length) ("")
      admission_source := ADMISSION_SOURCES.getD (d.admSrcIdx % ADMISSION_SOURCES.length) ("")
      primary_diagnosis_id := condition_id
      secondary_diagnoses := d.secondaryDiagnoses
      attending_physician := "Dr. " ++ d.attendingName
      length_of_stay_days := los
      patient_age_at_admission := age
      readmission_flag := r.readmission_flag
      readmission_within_30days := r.readmission_30day
      previous_admission_id := r.previous_admission_id
      discharge_disposition :=
        if mortality_flag ≠ 0 then "Expired"
        else DISCHARGE_DISPOSITIONS.dropLast.getD
          (d.dispIdx % DISCHARGE_DISPOSITIONS.dropLast.length) ("")
      mortality_flag := mortality_flag
      icu_stay_flag := icu_flag
      icu_days := icu_days }
  (adm, updateHist history patient.patient_id ⟨admission_id, final_discharge⟩)

/-- One loop iteration (the body of the `for i in range(n)` loop at
lines 178-250): the three data-frame selections and the condition
choice, in source order, then the pure record construction.  A failed
selection aborts the iteration with the raised error. -/
def emitNextAdmission (patients : List Patient) (hospitals : List Hospital)
    (departments : List Department) (i : Nat) (history : History) (d : Draws) :
    Except String (Admission × History) :=
  match sample1 patients d.patientIdx with
  | .error e => .error e
  | .ok patient =>
    match sample1 hospitals d.hospitalIdx with
    | .error e => .error e
    | .ok hospital =>
      match sample1 (departments.filter (fun dp => dp.hospital_id == hospital.hospital_id))
          d.deptIdx with
      | .error e => .error e
      | .ok dept =>
        match sample1 CONDITIONS d.condIdx with
        | .error e => .error e
        | .ok cd => .ok (buildAdmission i patient hospital dept cd.1 cd.2 history d)

/-- The generation loop run for its first `n` iterations: the admission
list in emission order together with the final history map.  A raised
error aborts the whole run, as an uncaught Python exception would. -/
def genRun (patients : List Patient) (hospitals : List Hospital)
    (departments : List Department) (draws : Nat → Draws) :
    Nat → Except String (List Admission × History)
  | 0 => .ok ([], initHistory patients)
  | n + 1 =>
    match genRun patients hospitals departments draws n with
    | .error e => .error e
    | .ok st =>
      match emitNextAdmission patients hospitals departments n st.2 (draws n) with
      | .error e => .error e
      | .ok ah => .ok (st.1 ++ [ah.1], ah.2)

/-- `generate_admissions(patients_df, hospitals_df, departments_df, n)`:
the returned admissions frame. -/
def generate_admissions (patients_df : List Patient) (hospitals_df : List Hospital)
    (departments_df : List Department) (n : Nat) (draws : Nat → Draws) :
    Except String (List Admission) :=
  (genRun patients_df hospitals_df departments_df draws n).map (fun st => st.1)

/-- Projection of a generated admission to the pair recorded in its
patient's history (lines 247-250). -/
def histProj (a : Admission) : HistEntry :=
  ⟨a.admission_id, a.discharge_date⟩

/-- The readmission triple of a new admission as a function of the full
records of the previously generated admissions: only the per-patient
projection to (admission id, discharge date) pairs enters. -/
def readmissionOfRun (adms : List Admission) (pid : String) (date : Nat) : ReadmissionInfo :=
  computeReadmission
    (((adms.filter (fun p => p.patient_id == pid)).map histProj).filter
      (fun e => e.discharge_date < date)) date

/- ------------------------------------------------------------------ -/
/- Helper lemmas.                                                     -/
/- ------------------------------------------------------------------ -/

theorem lookup_cons (q k : String) (v : List HistEntry) (t : History) :
    List.lookup q ((k, v) :: t) = cond (q == k) (some v) (List.lookup q t) := by
  cases hqk : q == k <;> simp [List.lookup, hqk]

theorem lookup_append_isSome (l₂ : History) (q : String) :
    ∀ l₁ : History, (l₁.lookup q).isSome = true → (l₁ ++ l₂).lookup q = l₁.lookup q
  | [], h => by simp [List.lookup] at h
  | (k, v) :: t, h => by
      rw [List.cons_append, lookup_cons, lookup_cons]
      cases hqk : q == k with
      | true => rfl
      | false =>
          rw [lookup_cons, hqk] at h
          simpa using lookup_append_isSome l₂ q t (by simpa using h)

theorem lookup_append_none (l₂ : History) (q : String) :
    ∀ l₁ : History, l₁.lookup q = none → (l₁ ++ l₂).lookup q = l₂.lookup q
  | [], _ => rfl
  | (k, v) :: t, h => by
      rw [lookup_cons] at h
      rw [List.cons_append, lookup_cons]
      cases hqk : q == k with
      | true => rw [hqk] at h; simp at h
      | false =>
          rw [hqk] at h
          simpa using lookup_append_none l₂ q t (by simpa using h)

theorem updateHist_lookup_self (pid : String) (e : HistEntry) :
    ∀ h : History, (updateHist h pid e).lookup pid = (h.lookup pid).map (fun l => l ++ [e])
  | [] => rfl
  | (k, v) :: t => by
      by_cases hk : k = pid
      · subst hk
        have hbeq : (k == k) = true := by simp
        simp [updateHist, lookup_cons, hbeq]
      · have hbeq : (pid == k) = false := by simp [Ne.symm hk]
        simp [updateHist, lookup_cons, hk, hbeq, updateHist_lookup_self pid e t]

theorem updateHist_lookup_ne (pid : String) (e : HistEntry) (q : String) (hq : q ≠ pid) :
    ∀ h : History, (updateHist h pid e).lookup q = h.lookup q
  | [] => rfl
  | (k, v) :: t => by
      by_cases hk : k = pid
      · have hbeq : (q == pid) = false := by simp [hq]
        simp [updateHist, lookup_cons, hk, hbeq, updateHist_lookup_ne pid e q hq t]
      · cases hqk : q == k <;>
          simp [updateHist, lookup_cons, hk, hqk, updateHist_lookup_ne pid e q hq t]

theorem updateHist_lookup_isSome (pid : String) (e : HistEntry) (q : String) (h : History) :
    ((updateHist h pid e).lookup q).isSome = (h.lookup q).isSome := by
  by_cases hq : q = pid
  · subst hq
    rw [updateHist_lookup_self]
    cases h.lookup q <;> rfl
  · rw [updateHist_lookup_ne pid e q hq]

theorem histAt_updateHist_self (h : History) (pid : String) (e : HistEntry)
    (hsome : (h.lookup pid).isSome = true) :
    histAt (updateHist h pid e) pid = histAt h pid ++ [e] := by
  rw [histAt, histAt, updateHist_lookup_self]
  cases hl : h.lookup pid with
  | none => rw [hl] at hsome; simp at hsome
  | some l => simp

theorem histAt_updateHist_ne (h : History) (pid : String) (e : HistEntry) (q : String)
    (hq : q ≠ pid) : histAt (updateHist h pid e) q = histAt h q := by
  rw [histAt, histAt, updateHist_lookup_ne pid e q hq]

theorem histAt_updateHist_prefix (h : History) (pid : String) (e : HistEntry) (q : String) :
    histAt h q <+: histAt (updateHist h pid e) q := by
  by_cases hq : q = pid
  · subst hq
    rw [histAt, histAt, updateHist_lookup_self]
    cases h.lookup q with
    | none => simp
    | some l => simp [List.prefix_append l [e]]
  · rw [histAt_updateHist_ne h pid e q hq]

theorem initHistory_lookup_isSome (patients : List Patient) (p : Patient)
    (hp : p ∈ patients) : ((initHistory patients).lookup p.patient_id).isSome = true := by
  have mono : ∀ (ps : List Patient) (acc : History) (q : String),
      (acc.lookup q).isSome = true →
      ((ps.foldl (fun m pa =>
          if (m.lookup pa.patient_id).isSome then m else m ++ [(pa.patient_id, [])]) acc).lookup
        q).isSome = true := by
    intro ps
    induction ps with
    | nil => intro acc q h; exact h
    | cons b bs ih =>
        intro acc q h
        rw [List.foldl_cons]
        apply ih
        by_cases hb : (acc.lookup b.patient_id).isSome = true
        · rw [if_pos hb]; exact h
        · rw [if_neg hb, lookup_append_isSome _ _ _ h]; exact h
  have step : ∀ (ps : List Patient) (acc : History), p ∈ ps →
      ((ps.foldl (fun m pa =>
          if (m.lookup pa.patient_id).isSome then m else m ++ [(pa.patient_id, [])]) acc).lookup
        p.patient_id).isSome = true := by
    intro ps
    induction ps with
    | nil => intro acc h; simp at h
    | cons b bs ih =>
        intro acc hmem
        rw [List.foldl_cons]
        rcases List.mem_cons.mp hmem with hb | hbs
        · subst hb
          apply mono
          by_cases hcur : (acc.lookup p.patient_id).isSome = true
          · rw [if_pos hcur]; exact hcur
          · rw [if_neg hcur,
              lookup_append_none _ _ _ (Option.not_isSome_iff_eq_none.mp hcur)]
            simp [lookup_cons]
        · exact ih _ hbs
  exact step patients [] hp

theorem sample1_mem {α : Type} {l : List α} {idx : Nat} {a : α}
    (h : sample1 l idx = .ok a) : a ∈ l := by
  cases l with
  | nil => simp [sample1] at h
  | cons x xs =>
      simp only [sample1, Except.ok.injEq] at h
      subst h
      have hlt : idx % (x :: xs).length < (x :: xs).length := Nat.mod_lt _ (by simp)
      rw [List.getD_eq_getElem _ _ hlt]
      exact List.getElem_mem hlt

theorem sample1_nil {α : Type} (idx : Nat) :
    sample1 ([] : List α) idx = .error ("cannot select from an empty population") := rfl

theorem sample1_cons_ok {α : Type} (x : α) (xs : List α) (idx : Nat) :
    sample1 (x :: xs) idx = .ok ((x :: xs).getD (idx % (x :: xs).length) x) := rfl

theorem sample1_error {α : Type} {l : List α} {idx : Nat} {e : String}
    (h : sample1 l idx = .error e) :
    e = "cannot select from an empty population" ∧ l = [] := by
  cases l with
  | nil => exact ⟨(Except.error.inj h).symm, rfl⟩
  | cons x xs => rw [sample1_cons_ok] at h; exact absurd h (by simp)

theorem foldl_maxBy_mem (as : List HistEntry) (a : HistEntry) :
    as.foldl (fun best x => if best.discharge_date < x.discharge_date then x else best) a = a ∨
    as.foldl (fun best x => if best.discharge_date < x.discharge_date then x else best) a ∈ as := by
  induction as generalizing a with
  | nil => left; rfl
  | cons b bs ih =>
      rw [List.foldl_cons]
      rcases ih (if a.discharge_date < b.discharge_date then b else a) with h | h
      · rw [h]
        by_cases hab : a.discharge_date < b.discharge_date
        · right; rw [if_pos hab]; exact List.mem_cons_self b bs
        · left; rw [if_neg hab]
      · right; exact List.mem_cons_of_mem b h

theorem foldl_maxBy_ge (as : List HistEntry) (a : HistEntry) :
    a.discharge_date ≤
      (as.foldl (fun best x => if best.discharge_date < x.discharge_date then x else best)
        a).discharge_date ∧
    ∀ x ∈ as, x.discharge_date ≤
      (as.foldl (fun best x => if best.discharge_date < x.discharge_date then x else best)
        a).discharge_date := by
  induction as generalizing a with
  | nil => exact ⟨le_rfl, by simp⟩
  | cons b bs ih =>
      rw [List.foldl_cons]
      obtain ⟨h1, h2⟩ := ih (if a.discharge_date < b.discharge_date then b else a)
      constructor
      · refine le_trans ?_ h1
        by_cases hab : a.discharge_date < b.discharge_date
        · rw [if_pos hab]; exact le_of_lt hab
        · rw [if_neg hab]
      · intro x hx
        rcases List.mem_cons.mp hx with hxb | hxbs
        · subst hxb
          refine le_trans ?_ h1
          by_cases hab : a.discharge_date < x.discharge_date
          · rw [if_pos hab]
          · rw [if_neg hab]; exact le_of_not_lt hab
        · exact h2 x hxbs

theorem maxByDischarge_eq_none {l : List HistEntry} : maxByDischarge l = none ↔ l = [] := by
  cases l <;> simp [maxByDischarge]

theorem maxByDischarge_spec {l : List HistEntry} {m : HistEntry}
    (h : maxByDischarge l = some m) :
    m ∈ l ∧ ∀ x ∈ l, x.discharge_date ≤ m.discharge_date := by
  cases l with
  | nil => simp [maxByDischarge] at h
  | cons a as =>
      simp only [maxByDischarge, Option.some.injEq] at h
      subst h
      constructor
      · rcases foldl_maxBy_mem as a with h | h
        · rw [h]; exact List.mem_cons_self a as
        · exact List.mem_cons_of_mem a h
      · intro x hx
        rcases List.mem_cons.mp hx with hxa | hxas
        · subst hxa; exact (foldl_maxBy_ge as x).1
        · exact (foldl_maxBy_ge as a).2 x hxas

theorem computeReadmission_nil (date : Nat) :
    computeReadmission [] date = ⟨0, 0, none⟩ := rfl

theorem computeReadmission_spec (l : List HistEntry) (date : Nat) (hne : l ≠ []) :
    ∃ L ∈ l, (∀ x ∈ l, x.discharge_date ≤ L.discharge_date) ∧
      computeReadmission l date =
        (if date - L.discharge_date ≤ 30 then ⟨1, 1, some L.admission_id⟩
         else if date - L.discharge_date ≤ 90 then ⟨1, 0, some L.admission_id⟩
         else ⟨0, 0, none⟩) := by
  cases hmax : maxByDischarge l with
  | none => exact absurd (maxByDischarge_eq_none.mp hmax) hne
  | some m =>
      obtain ⟨hm, hge⟩ := maxByDischarge_spec hmax
      exact ⟨m, hm, hge, by simp only [computeReadmission, hmax]⟩

theorem computeReadmission_link_iff (l : List HistEntry) (date : Nat) :
    (computeReadmission l date).previous_admission_id ≠ none ↔
      (computeReadmission l date).readmission_flag = 1 := by
  rcases hmax : maxByDischarge l with _ | m
  · simp [computeReadmission, hmax]
  · by_cases h30 : date - m.discharge_date ≤ 30
    · simp [computeReadmission, hmax, h30]
    · by_cases h90 : date - m.discharge_date ≤ 90 <;>
        simp [computeReadmission, hmax, h30, h90]

theorem buildAdmission_snd (i : Nat) (patient : Patient) (hospital : Hospital)
    (dept : Department) (cid : String) (cinfo : ConditionInfo) (history : History)
    (d : Draws) :
    (buildAdmission i patient hospital dept cid cinfo history d).2 =
      updateHist history patient.patient_id
        (histProj (buildAdmission i patient hospital dept cid cinfo history d).1) := rfl

theorem buildAdmission_patient_id (i : Nat) (patient : Patient) (hospital : Hospital)
    (dept : Department) (cid : String) (cinfo : ConditionInfo) (history : History)
    (d : Draws) :
    (buildAdmission i patient hospital dept cid cinfo history d).1.patient_id =
      patient.patient_id := rfl

theorem buildAdmission_readmission (i : Nat) (patient : Patient) (hospital : Hospital)
    (dept : Department) (cid : String) (cinfo : ConditionInfo) (history : History)
    (d : Draws) :
    (⟨(buildAdmission i patient hospital dept cid cinfo history d).1.readmission_flag,
      (buildAdmission i patient hospital dept cid cinfo history d).1.readmission_within_30days,
      (buildAdmission i patient hospital dept cid cinfo history d).1.previous_admission_id⟩ :
        ReadmissionInfo) =
      computeReadmission
        ((histAt history patient.patient_id).filter
          (fun a => a.discharge_date <
            (buildAdmission i patient hospital dept cid cinfo history d).1.admission_date))
        (buildAdmission i patient hospital dept cid cinfo history d).1.admission_date := rfl

theorem emit_ok_inv {patients : List Patient} {hospitals : List Hospital}
    {departments : List Department} {i : Nat} {history : History} {d : Draws}
    {a : Admission} {h' : History}
    (h : emitNextAdmission patients hospitals departments i history d = .ok (a, h')) :
    ∃ patient ∈ patients, ∃ hospital ∈ hospitals,
      ∃ dept ∈ departments.filter (fun dp => dp.hospital_id == hospital.hospital_id),
        ∃ cd ∈ CONDITIONS,
          (a, h') = buildAdmission i patient hospital dept cd.1 cd.2 history d := by
  rw [emitNextAdmission] at h
  split at h
  · simp at h
  next patient hp =>
    split at h
    · simp at h
    next hospital hh =>
      split at h
      · simp at h
      next dept hd =>
        split at h
        · simp at h
        next cd hc =>
          exact ⟨patient, sample1_mem hp, hospital, sample1_mem hh,
            dept, sample1_mem hd, cd, sample1_mem hc, (Except.ok.inj h).symm⟩

theorem genRun_zero {patients : List Patient} {hospitals : List Hospital}
    {departments : List Department} {draws : Nat → Draws} :
    genRun patients hospitals departments draws 0 = .ok ([], initHistory patients) := rfl

theorem genRun_succ_inv {patients : List Patient} {hospitals : List Hospital}
    {departments : List Department} {draws : Nat → Draws} {n : Nat}
    {adms' : List Admission} {h' : History}
    (h : genRun patients hospitals departments draws (n + 1) = .ok (adms', h')) :
    ∃ adms h0 a, genRun patients hospitals departments draws n = .ok (adms, h0) ∧
      emitNextAdmission patients hospitals departments n h0 (draws n) = .ok (a, h') ∧
      adms' = adms ++ [a] := by
  rw [genRun] at h
  split at h
  · simp at h
  next st hg =>
    split at h
    · simp at h
    next ah he =>
      have h3 := Except.ok.inj h
      rw [Prod.mk.injEq] at h3
      obtain ⟨hA, hH⟩ := h3
      refine ⟨st.1, st.2, ah.1, by rw [hg], ?_, hA.symm⟩
      rw [he, ← hH]

theorem initHistory_lookup_val (patients : List Patient) (q : String) (v : List HistEntry)
    (h : (initHistory patients).lookup q = some v) : v = [] := by
  have aux : ∀ (ps : List Patient) (acc : History),
      (∀ q' v', acc.lookup q' = some v' → v' = []) →
      ∀ q' v', ((ps.foldl (fun m pa =>
          if (m.lookup pa.patient_id).isSome then m else m ++ [(pa.patient_id, [])])
            acc).lookup q') = some v' → v' = [] := by
    intro ps
    induction ps with
    | nil => intro acc hacc q' v' hl; exact hacc q' v' hl
    | cons b bs ih =>
        intro acc hacc q' v' hl
        rw [List.foldl_cons] at hl
        refine ih _ ?_ q' v' hl
        intro q2 v2 hv2
        by_cases hb : (acc.lookup b.patient_id).isSome = true
        · rw [if_pos hb] at hv2; exact hacc q2 v2 hv2
        · rw [if_neg hb] at hv2
          by_cases hsome : (acc.lookup q2).isSome = true
          · rw [lookup_append_isSome _ _ _ hsome] at hv2; exact hacc q2 v2 hv2
          · rw [lookup_append_none _ _ _ (Option.not_isSome_iff_eq_none.mp hsome),
              lookup_cons] at hv2
            cases hq2 : q2 == b.patient_id <;> rw [hq2] at hv2 <;> simp_all
  exact aux patients [] (by intro q' v' hl; simp [List.lookup] at hl) q v h

theorem histAt_initHistory (patients : List Patient) (pid : String) :
    histAt (initHistory patients) pid = [] := by
  rw [histAt]
  cases hl : (initHistory patients).lookup pid with
  | none => rfl
  | some v =>
      simp only [Option.getD_some]
      exact initHistory_lookup_val patients pid v hl

theorem genRun_invariants {patients : List Patient} {hospitals : List Hospital}
    {departments : List Department} {draws : Nat → Draws} :
    ∀ {n : Nat} {adms : List Admission} {h : History},
      genRun patients hospitals departments draws n = .ok (adms, h) →
      ((∀ q, (h.lookup q).isSome = ((initHistory patients).lookup q).isSome) ∧
       (∀ pid, histAt h pid = (adms.filter (fun p => p.patient_id == pid)).map histProj)) := by
  intro n
  induction n with
  | zero =>
      intro adms h hrun
      rw [genRun_zero] at hrun
      have h3 := Except.ok.inj hrun
      rw [Prod.mk.injEq] at h3
      obtain ⟨hA, hH⟩ := h3
      subst hA; subst hH
      exact ⟨fun q => rfl, fun pid => by rw [histAt_initHistory]; rfl⟩
  | succ n ih =>
      intro adms h hrun
      obtain ⟨adms0, h0, a, hg, he, rfl⟩ := genRun_succ_inv hrun
      obtain ⟨ih1, ih2⟩ := ih hg
      obtain ⟨patient, hpat, hospital, hhos, dept, hdept, cd, hcd, hpair⟩ := emit_ok_inv he
      have ha : a = (buildAdmission n patient hospital dept cd.1 cd.2 h0 (draws n)).1 :=
        congrArg Prod.fst hpair
      have hpid : a.patient_id = patient.patient_id := by rw [ha]; rfl
      have hupd : h = updateHist h0 a.patient_id (histProj a) := by
        have hh2 : h = (buildAdmission n patient hospital dept cd.1 cd.2 h0 (draws n)).2 :=
          congrArg Prod.snd hpair
        rw [hh2, buildAdmission_snd, ← ha, ← hpid]
      have hsome : (h0.lookup a.patient_id).isSome = true := by
        rw [hpid, ih1]
        exact initHistory_lookup_isSome patients patient hpat
      constructor
      · intro q
        rw [hupd, updateHist_lookup_isSome]
        exact ih1 q
      · intro pid
        rw [hupd, List.filter_append, List.map_append]
        by_cases hpq : pid = a.patient_id
        · rw [hpq, histAt_updateHist_self h0 a.patient_id (histProj a) hsome,
            ih2 a.patient_id]
          simp [List.filter]
        · have hbeq : (a.patient_id == pid) = false := by simp [Ne.symm hpq]
          rw [histAt_updateHist_ne h0 a.patient_id (histProj a) pid hpq, ih2 pid]
          simp [List.filter, hbeq]

theorem genRun_prefix {patients : List Patient} {hospitals : List Hospital}
    {departments : List Department} {draws : Nat → Draws} :
    ∀ {n m : Nat}, n ≤ m →
      ∀ {admsN : List Admission} {hN : History} {admsM : List Admission} {hM : History},
      genRun patients hospitals departments draws n = .ok (admsN, hN) →
      genRun patients hospitals departments draws m = .ok (admsM, hM) →
      (admsN <+: admsM ∧ ∀ pid, histAt hN pid <+: histAt hM pid) := by
  intro n m
  induction m with
  | zero =>
      intro hnm admsN hN admsM hM h1 h2
      have hn0 : n = 0 := Nat.le_zero.mp hnm
      subst hn0
      rw [h1] at h2
      have h3 := Except.ok.inj h2
      rw [Prod.mk.injEq] at h3
      obtain ⟨rfl, rfl⟩ := h3
      exact ⟨List.prefix_rfl, fun pid => List.prefix_rfl⟩
  | succ m ih =>
      intro hnm admsN hN admsM hM h1 h2
      by_cases hn : n = m + 1
      · subst hn
        rw [h1] at h2
        have h3 := Except.ok.inj h2
        rw [Prod.mk.injEq] at h3
        obtain ⟨rfl, rfl⟩ := h3
        exact ⟨List.prefix_rfl, fun pid => List.prefix_rfl⟩
      · have hle : n ≤ m := Nat.lt_succ_iff.mp (Nat.lt_of_le_of_ne hnm hn)
        obtain ⟨adms0, h0, a, hg, he, rfl⟩ := genRun_succ_inv h2
        obtain ⟨pA, pH⟩ := ih hle h1 hg
        obtain ⟨patient, hpat, hospital, hhos, dept, hdept, cd, hcd, hpair⟩ := emit_ok_inv he
        have hh : hM = updateHist h0 patient.patient_id
            (histProj (buildAdmission m patient hospital dept cd.1 cd.2 h0 (draws m)).1) := by
          have hh2 : hM = (buildAdmission m patient hospital dept cd.1 cd.2 h0 (draws m)).2 :=
            congrArg Prod.snd hpair
          rw [hh2, buildAdmission_snd]
        refine ⟨pA.trans (List.prefix_append adms0 [a]), fun pid => (pH pid).trans ?_⟩
        rw [hh]
        exact histAt_updateHist_prefix h0 patient.patient_id _ pid

theorem genRun_mem_admission {patients : List Patient} {hospitals : List Hospital}
    {departments : List Department} {draws : Nat → Draws} :
    ∀ {n : Nat} {adms : List Admission} {h : History},
      genRun patients hospitals departments draws n = .ok (adms, h) →
      ∀ {a : Admission}, a ∈ adms →
      ∃ i h0 patient hospital dept cd, patient ∈ patients ∧ hospital ∈ hospitals ∧
        dept ∈ departments.filter (fun dp => dp.hospital_id == hospital.hospital_id) ∧
        cd ∈ CONDITIONS ∧
        a = (buildAdmission i patient hospital dept cd.1 cd.2 h0 (draws i)).1 := by
  intro n
  induction n with
  | zero =>
      intro adms h hrun a ha
      rw [genRun_zero] at hrun
      have h3 := Except.ok.inj hrun
      rw [Prod.mk.injEq] at h3
      rw [← h3.1] at ha
      simp at ha
  | succ n ih =>
      intro adms h hrun a ha
      obtain ⟨adms0, h0, b, hg, he, rfl⟩ := genRun_succ_inv hrun
      rcases List.mem_append.mp ha with hmem | hmem
      · exact ih hg hmem
      · have hab : a = b := by simpa using hmem
        subst hab
        obtain ⟨patient, hpat, hospital, hhos, dept, hdept, cd, hcd, hpair⟩ := emit_ok_inv he
        exact ⟨n, h0, patient, hospital, dept, cd, hpat, hhos, hdept, hcd,
          congrArg Prod.fst hpair⟩

theorem buildAdmission_los_pos (i : Nat) (patient : Patient) (hospital : Hospital)
    (dept : Department) (cid : String) (cinfo : ConditionInfo) (history : History)
    (d : Draws) :
    1 ≤ (buildAdmission i patient hospital dept cid cinfo history d).1.length_of_stay_days := by
  show 1 ≤ (max 1 d.losSample).toNat
  have h1 : (1 : Int) ≤ max 1 d.losSample := le_max_left _ _
  omega

theorem buildAdmission_discharge_ge (i : Nat) (patient : Patient) (hospital : Hospital)
    (dept : Department) (cid : String) (cinfo : ConditionInfo) (history : History)
    (d : Draws) :
    (buildAdmission i patient hospital dept cid cinfo history d).1.admission_date ≤
      (buildAdmission i patient hospital dept cid cinfo history d).1.discharge_date := by
  simp only [buildAdmission]
  by_cases hm : d.mortRoll < (0.02 : ℚ) <;> simp [hm]

/- ------------------------------------------------------------------ -/
/- Concrete inputs used by witness runs.                              -/
/- ------------------------------------------------------------------ -/

def wPatient : Patient := ⟨"P10001", -6570⟩

def wPatients : List Patient := [wPatient]

def wHospitals : List Hospital := [⟨"H40001"⟩]

def wDepartments : List Department := [⟨"D50001", "H40001"⟩]

def baseDraws : Draws :=
  { patientIdx := 0, hospitalIdx := 0, deptIdx := 0, admOffset := 100, condIdx := 0,
    losSample := 5, icuRoll := 1/2, icuDaysRoll := 0, mortRoll := 1/2, mortOffset := 0,
    admTypeIdx := 0, admSrcIdx := 0, dispIdx := 0,
    secondaryDiagnoses := "", attendingName := "Smith" }

/-- The selections a witness run makes from the singleton input frames,
so a one-iteration run reduces definitionally to `buildAdmission`. -/
def emitRes (i : Nat) (hist : History) (d : Draws) : Admission × History :=
  buildAdmission i wPatient ⟨"H40001"⟩ ⟨"D50001", "H40001"⟩ ("C10001")
    ⟨"Diabetes Mellitus Type 2", 0.3, 4, 2⟩ hist d

/- ------------------------------------------------------------------ -/
/- Claim theorems.                                                    -/
/- ------------------------------------------------------------------ -/

/-- C6: every generated admission has `length_of_stay_days ≥ 1` (a
sampled stay ≤ 0 is clamped to 1 by `max(1, ...)`) and
`discharge_date ≥ admission_date`, in both the normal branch
(discharge = admission + stay) and the mortality-override branch
(discharge = admission + randint(1, 5)). -/
theorem spec_C6_stay_floor {patients : List Patient} {hospitals : List Hospital}
    {departments : List Department} {draws : Nat → Draws} {n : Nat}
    {adms : List Admission} {h : History}
    (hrun : genRun patients hospitals departments draws n = .ok (adms, h))
    {a : Admission} (ha : a ∈ adms) :
    1 ≤ a.length_of_stay_days ∧ a.admission_date ≤ a.discharge_date := by
  obtain ⟨i, h0, patient, hospital, dept, cd, _, _, _, _, hb⟩ :=
    genRun_mem_admission hrun ha
  rw [hb]
  exact ⟨buildAdmission_los_pos _ _ _ _ _ _ _ _, buildAdmission_discharge_ge _ _ _ _ _ _ _ _⟩

def wAdmC6 : Admission := (emitRes 0 (initHistory wPatients) baseDraws).1

def wHistC6 : History := (emitRes 0 (initHistory wPatients) baseDraws).2

/-- Witness for C6 on a concrete one-iteration run. -/
theorem spec_C6_stay_floor_witness :
    1 ≤ wAdmC6.length_of_stay_days ∧ wAdmC6.admission_date ≤ wAdmC6.discharge_date := by
  have hrun : genRun wPatients wHospitals wDepartments (fun _ => baseDraws) 1 =
      .ok ([wAdmC6], wHistC6) := rfl
  exact spec_C6_stay_floor hrun (List.mem_singleton_self wAdmC6)

/-- C5: the generation pipeline is a deterministic function of the
random-source state and the input collections: two runs over identical
seeds (identical draw streams) and identical inputs produce identical
admission sequences. -/
theorem spec_C5_determinism (patients1 patients2 : List Patient)
    (hospitals1 hospitals2 : List Hospital) (departments1 departments2 : List Department)
    (draws1 draws2 : Nat → Draws) (n1 n2 : Nat)
    (hp : patients1 = patients2) (hh : hospitals1 = hospitals2)
    (hd : departments1 = departments2) (hdr : draws1 = draws2) (hn : n1 = n2) :
    generate_admissions patients1 hospitals1 departments1 n1 draws1 =
      generate_admissions patients2 hospitals2 departments2 n2 draws2 := by
  subst hp; subst hh; subst hd; subst hdr; subst hn; rfl

/-- Witness for C5 at a concrete input. -/
theorem spec_C5_determinism_witness :
    generate_admissions wPatients wHospitals wDepartments 1 (fun _ => baseDraws) =
      generate_admissions wPatients wHospitals wDepartments 1 (fun _ => baseDraws) :=
  spec_C5_determinism wPatients wPatients wHospitals wHospitals wDepartments wDepartments
    (fun _ => baseDraws) (fun _ => baseDraws) 1 1 rfl rfl rfl rfl rfl

/-- C8: every generated admission's department belongs to the
admission's hospital (the department is sampled from the departments
frame filtered to the selected hospital's id), and an empty selection
pool — no patients, no hospitals, or a selected hospital owning zero
departments — makes the iteration raise an error instead of emitting an
admission. -/
theorem spec_C8_department :
    (∀ (patients : List Patient) (hospitals : List Hospital) (departments : List Department)
        (draws : Nat → Draws) (n : Nat) (adms : List Admission) (h : History),
      genRun patients hospitals departments draws n = .ok (adms, h) →
      ∀ a ∈ adms, ∃ dp ∈ departments,
        dp.department_id = a.department_id ∧ dp.hospital_id = a.hospital_id)
  ∧ (∀ (patients : List Patient) (hospitals : List Hospital) (departments : List Department)
        (i : Nat) (history : History) (d : Draws) (hospital : Hospital),
      sample1 hospitals d.hospitalIdx = .ok hospital →
      departments.filter (fun dp => dp.hospital_id == hospital.hospital_id) = [] →
      emitNextAdmission patients hospitals departments i history d =
        .error ("cannot select from an empty population"))
  ∧ (∀ (patients : List Patient) (hospitals : List Hospital) (departments : List Department)
        (i : Nat) (history : History) (d : Draws),
      patients = [] ∨ hospitals = [] →
      emitNextAdmission patients hospitals departments i history d =
        .error ("cannot select from an empty population")) := by
  refine ⟨?_, ?_, ?_⟩
  · intro patients hospitals departments draws n adms h hrun a ha
    obtain ⟨i, h0, patient, hospital, dept, cd, _, _, hdept, _, hb⟩ :=
      genRun_mem_admission hrun ha
    obtain ⟨hmem, hpred⟩ := List.mem_filter.mp hdept
    refine ⟨dept, hmem, ?_, ?_⟩
    · rw [hb]; rfl
    · rw [hb]
      exact eq_of_beq hpred
  · intro patients hospitals departments i history d hospital hhos hfil
    rw [emitNextAdmission]
    split
    next e heq => obtain ⟨rfl, _⟩ := sample1_error heq; rfl
    next patient hpat =>
      split
      next e heq => obtain ⟨rfl, _⟩ := sample1_error heq; rfl
      next hospital2 hh2 =>
        have hsame : hospital2 = hospital := by
          rw [hhos] at hh2
          exact (Except.ok.inj hh2).symm
        subst hsame
        split
        next e heq => obtain ⟨rfl, _⟩ := sample1_error heq; rfl
        next dept hd =>
          rw [hfil, sample1_nil] at hd
          exact absurd hd (by simp)
  · intro patients hospitals departments i history d hemp
    rw [emitNextAdmission]
    split
    next e heq => obtain ⟨rfl, _⟩ := sample1_error heq; rfl
    next patient hpat =>
      rcases hemp with hemp | hemp
      · subst hemp
        rw [sample1_nil] at hpat
        exact absurd hpat (by simp)
      · subst hemp
        split
        next e heq => obtain ⟨rfl, _⟩ := sample1_error heq; rfl
        next hospital hh =>
          rw [sample1_nil] at hh
          exact absurd hh (by simp)

def wAdmC8 : Admission := (emitRes 0 (initHistory wPatients) baseDraws).1

def wHistC8 : History := (emitRes 0 (initHistory wPatients) baseDraws).2

/-- Witness for C8: the department of a concretely generated admission
belongs to its hospital, and the empty-pool cases raise. -/
theorem spec_C8_department_witness :
    ((⟨"D50001", "H40001"⟩ : Department) ∈ wDepartments ∧
      ("D50001" = wAdmC8.department_id ∧ "H40001" = wAdmC8.hospital_id)) ∧
    emitNextAdmission wPatients wHospitals [] 0 (initHistory wPatients) baseDraws =
      .error ("cannot select from an empty population") ∧
    emitNextAdmission [] wHospitals wDepartments 0 (initHistory wPatients) baseDraws =
      .error ("cannot select from an empty population") := by
  have hrun : genRun wPatients wHospitals wDepartments (fun _ => baseDraws) 1 =
      .ok ([wAdmC8], wHistC8) := rfl
  obtain ⟨dp, hdp, h1, h2⟩ :=
    spec_C8_department.1 wPatients wHospitals wDepartments (fun _ => baseDraws) 1
      [wAdmC8] wHistC8 hrun wAdmC8 (List.mem_singleton_self wAdmC8)
  have hdp' : dp = ⟨"D50001", "H40001"⟩ := by
    have := hdp
    simp [wDepartments] at this
    exact this
  refine ⟨⟨by simp [wDepartments], ?_, ?_⟩, ?_, ?_⟩
  · rw [hdp'] at h1; exact h1
  · rw [hdp'] at h2; exact h2
  · exact spec_C8_department.2.1 wPatients wHospitals [] 0 (initHistory wPatients) baseDraws
      ⟨"H40001"⟩ rfl rfl
  · exact spec_C8_department.2.2 [] wHospitals wDepartments 0 (initHistory wPatients) baseDraws
      (Or.inl rfl)

theorem buildAdmission_disposition (i : Nat) (patient : Patient) (hospital : Hospital)
    (dept : Department) (cid : String) (cinfo : ConditionInfo) (history : History)
    (d : Draws) :
    (buildAdmission i patient hospital dept cid cinfo history d).1.discharge_disposition =
        "Expired" ∨
    (buildAdmission i patient hospital dept cid cinfo history d).1.discharge_disposition =
      DISCHARGE_DISPOSITIONS.dropLast.getD
        (d.dispIdx % DISCHARGE_DISPOSITIONS.dropLast.length) ("") := by
  by_cases hm : d.mortRoll < (0.02 : ℚ)
  · left; simp [buildAdmission, hm]
  · right; simp [buildAdmission, hm]

theorem dropLast_no_ama (j : Nat) :
    DISCHARGE_DISPOSITIONS.dropLast.getD
      (j % DISCHARGE_DISPOSITIONS.dropLast.length) ("") ≠ "Left AMA" := by
  have hlen : DISCHARGE_DISPOSITIONS.dropLast.length = 5 := rfl
  have hlt : j % DISCHARGE_DISPOSITIONS.dropLast.length < 5 := by
    rw [hlen]
    exact Nat.mod_lt _ (by decide)
  have hall : ∀ k, k < 5 → DISCHARGE_DISPOSITIONS.dropLast.getD k ("") ≠ "Left AMA" := by
    decide
  exact hall _ hlt

def drawsC9 : Draws := { baseDraws with dispIdx := 4 }

def wAdmC9 : Admission := (emitRes 0 (initHistory wPatients) drawsC9).1

/-- C9: no generated admission is ever discharged "Left AMA" — the
non-mortality branch samples from DISCHARGE_DISPOSITIONS[:-1] (the
first five entries) and the mortality branch forces "Expired" — those
five entries do include "Expired", and a run exists whose admission has
mortality_flag = 0 yet discharge_disposition = "Expired": the Expired
disposition does not imply the mortality flag. -/
theorem spec_C9_disposition :
    (∀ (patients : List Patient) (hospitals : List Hospital) (departments : List Department)
        (draws : Nat → Draws) (n : Nat) (adms : List Admission) (h : History),
      genRun patients hospitals departments draws n = .ok (adms, h) →
      ∀ a ∈ adms, a.discharge_disposition ≠ "Left AMA")
  ∧ "Expired" ∈ DISCHARGE_DISPOSITIONS.dropLast
  ∧ (generate_admissions wPatients wHospitals wDepartments 1 (fun _ => drawsC9) =
        .ok [wAdmC9] ∧
      wAdmC9.mortality_flag = 0 ∧ wAdmC9.discharge_disposition = "Expired") := by
  refine ⟨?_, by decide, rfl, ?_, ?_⟩
  · intro patients hospitals departments draws n adms h hrun a ha
    obtain ⟨i, h0, patient, hospital, dept, cd, _, _, _, _, hb⟩ :=
      genRun_mem_admission hrun ha
    rw [hb]
    rcases buildAdmission_disposition i patient hospital dept cd.1 cd.2 h0 (draws i) with
      hd | hd
    · rw [hd]; decide
    · rw [hd]; exact dropLast_no_ama _
  · norm_num [wAdmC9, emitRes, buildAdmission, drawsC9, baseDraws]
  · norm_num [wAdmC9, emitRes, buildAdmission, drawsC9, baseDraws, DISCHARGE_DISPOSITIONS,
      List.dropLast, List.getD]

/-- Witness for the universally quantified part of C9 at a concrete
run. -/
theorem spec_C9_disposition_witness : wAdmC9.discharge_disposition ≠ "Left AMA" := by
  have hrun : genRun wPatients wHospitals wDepartments (fun _ => drawsC9) 1 =
      .ok ([wAdmC9], (emitRes 0 (initHistory wPatients) drawsC9).2) := rfl
  exact spec_C9_disposition.1 wPatients wHospitals wDepartments (fun _ => drawsC9) 1
    [wAdmC9] (emitRes 0 (initHistory wPatients) drawsC9).2 hrun wAdmC9
    (List.mem_singleton_self wAdmC9)

theorem buildAdmission_mortality (i : Nat) (patient : Patient) (hospital : Hospital)
    (dept : Department) (cid : String) (cinfo : ConditionInfo) (history : History)
    (d : Draws)
    (hm : (buildAdmission i patient hospital dept cid cinfo history d).1.mortality_flag = 1) :
    (buildAdmission i patient hospital dept cid cinfo history d).1.discharge_disposition =
        "Expired" ∧
    (buildAdmission i patient hospital dept cid cinfo history d).1.discharge_date =
      (buildAdmission i patient hospital dept cid cinfo history d).1.admission_date +
        (1 + d.mortOffset % 5) := by
  by_cases hroll : d.mortRoll < (0.02 : ℚ)
  · constructor <;> simp [buildAdmission, hroll]
  · exfalso
    simp [buildAdmission, hroll] at hm

def cDraws3 : Draws := { baseDraws with mortRoll := 0, mortOffset := 4 }

def cAdm3 : Admission := (emitRes 0 (initHistory wPatients) cDraws3).1

/-- C3 as written is false on the code: the mortality override at line
229 draws the discharge offset from randint(1, 5), not 1-3 days; this
concretely generated admission has mortality_flag = 1 and an actual
stay of 5 days, refuting the claimed 3-day bound. -/
theorem spec_C3_counterexample :
    generate_admissions wPatients wHospitals wDepartments 1 (fun _ => cDraws3) =
      .ok [cAdm3] ∧
    cAdm3.mortality_flag = 1 ∧
    ¬ (cAdm3.discharge_date - cAdm3.admission_date ≤ 3) := by
  refine ⟨rfl, ?_, ?_⟩ <;>
    norm_num [cAdm3, emitRes, buildAdmission, cDraws3, baseDraws]

/-- C3 amended: with mortality_flag set, discharge_disposition is
forced to "Expired" (superseding any other disposition) and the
discharge date is overridden to admission date + a random offset of 1
to 5 days, so the actual stay is at most 5 days (not 3). -/
theorem spec_C3_mortality {patients : List Patient} {hospitals : List Hospital}
    {departments : List Department} {draws : Nat → Draws} {n : Nat}
    {adms : List Admission} {h : History}
    (hrun : genRun patients hospitals departments draws n = .ok (adms, h))
    {a : Admission} (ha : a ∈ adms) (hm : a.mortality_flag = 1) :
    a.discharge_disposition = "Expired" ∧
    (∃ k, 1 ≤ k ∧ k ≤ 5 ∧ a.discharge_date = a.admission_date + k) ∧
    a.discharge_date - a.admission_date ≤ 5 := by
  obtain ⟨i, h0, patient, hospital, dept, cd, _, _, _, _, hb⟩ :=
    genRun_mem_admission hrun ha
  subst hb
  obtain ⟨h1, h2⟩ := buildAdmission_mortality i patient hospital dept cd.1 cd.2 h0
    (draws i) hm
  have hmod : (draws i).mortOffset % 5 < 5 := Nat.mod_lt _ (by decide)
  exact ⟨h1, ⟨1 + (draws i).mortOffset % 5, by omega, by omega, h2⟩, by omega⟩

/-- Witness for the amended C3 on a concrete mortality admission. -/
theorem spec_C3_mortality_witness :
    cAdm3.mortality_flag = 1 ∧ cAdm3.discharge_disposition = "Expired" := by
  have hrun : genRun wPatients wHospitals wDepartments (fun _ => cDraws3) 1 =
      .ok ([cAdm3], (emitRes 0 (initHistory wPatients) cDraws3).2) := rfl
  have hm : cAdm3.mortality_flag = 1 := by
    norm_num [cAdm3, emitRes, buildAdmission, cDraws3, baseDraws]
  exact ⟨hm, (spec_C3_mortality hrun (List.mem_singleton_self cAdm3) hm).1⟩

theorem buildAdmission_los_eq (i : Nat) (patient : Patient) (hospital : Hospital)
    (dept : Department) (cid : String) (cinfo : ConditionInfo) (history : History)
    (d : Draws)
    (hm : (buildAdmission i patient hospital dept cid cinfo history d).1.mortality_flag = 0) :
    (buildAdmission i patient hospital dept cid cinfo history d).1.length_of_stay_days =
      (buildAdmission i patient hospital dept cid cinfo history d).1.discharge_date -
        (buildAdmission i patient hospital dept cid cinfo history d).1.admission_date := by
  by_cases hroll : d.mortRoll < (0.02 : ℚ)
  · exfalso
    simp [buildAdmission, hroll] at hm
  · simp only [buildAdmission, hroll]
    simp

def cDraws7 : Draws := { baseDraws with mortRoll := 0, losSample := 7 }

def cAdm7 : Admission := (emitRes 0 (initHistory wPatients) cDraws7).1

/-- C7 as written is false on the code: the mortality override replaces
the discharge date but the stored length_of_stay_days keeps the
pre-override sampled stay; this concretely generated admission stores
length_of_stay_days = 7 while its discharge minus admission is 1 day. -/
theorem spec_C7_counterexample :
    generate_admissions wPatients wHospitals wDepartments 1 (fun _ => cDraws7) =
      .ok [cAdm7] ∧
    cAdm7.mortality_flag = 1 ∧
    ¬ (cAdm7.length_of_stay_days = cAdm7.discharge_date - cAdm7.admission_date) := by
  refine ⟨rfl, ?_, ?_⟩
  · norm_num [cAdm7, emitRes, buildAdmission, cDraws7, baseDraws]
  · norm_num [cAdm7, emitRes, buildAdmission, cDraws7, baseDraws]
    decide

/-- C7 amended: for every generated admission with mortality_flag = 0
the stored length_of_stay_days equals discharge date minus admission
date in days; under a mortality override the stored field keeps the
originally sampled stay and can differ from that difference. -/
theorem spec_C7_los_consistency {patients : List Patient} {hospitals : List Hospital}
    {departments : List Department} {draws : Nat → Draws} {n : Nat}
    {adms : List Admission} {h : History}
    (hrun : genRun patients hospitals departments draws n = .ok (adms, h))
    {a : Admission} (ha : a ∈ adms) (hm : a.mortality_flag = 0) :
    a.length_of_stay_days = a.discharge_date - a.admission_date := by
  obtain ⟨i, h0, patient, hospital, dept, cd, _, _, _, _, hb⟩ :=
    genRun_mem_admission hrun ha
  subst hb
  exact buildAdmission_los_eq i patient hospital dept cd.1 cd.2 h0 (draws i) hm

def wAdmC7 : Admission := (emitRes 0 (initHistory wPatients) baseDraws).1

/-- Witness for the amended C7 on a concrete non-mortality admission. -/
theorem spec_C7_los_consistency_witness :
    wAdmC7.mortality_flag = 0 ∧
    wAdmC7.length_of_stay_days = wAdmC7.discharge_date - wAdmC7.admission_date := by
  have hrun : genRun wPatients wHospitals wDepartments (fun _ => baseDraws) 1 =
      .ok ([wAdmC7], (emitRes 0 (initHistory wPatients) baseDraws).2) := rfl
  have hm : wAdmC7.mortality_flag = 0 := by
    norm_num [wAdmC7, emitRes, buildAdmission, baseDraws]
  exact ⟨hm, spec_C7_los_consistency hrun (List.mem_singleton_self wAdmC7) hm⟩

def cDraws4 : Draws := { baseDraws with icuRoll := 0, losSample := 1 }

def cAdm4 : Admission := (emitRes 0 (initHistory wPatients) cDraws4).1

/-- C4: the code's ICU-day computation (line 218) is the ungated
`randint(1, max(1, los // 2))`: at the failing input — ICU flag set
with a one-day stay — the generated admission carries icu_days = 1,
where the claim (the spec's corrected variant) requires icu_days = 0. -/
theorem spec_C4_icu_bug :
    generate_admissions wPatients wHospitals wDepartments 1 (fun _ => cDraws4) =
      .ok [cAdm4] ∧
    cAdm4.icu_stay_flag = 1 ∧ cAdm4.length_of_stay_days = 1 ∧ cAdm4.icu_days = 1 := by
  refine ⟨rfl, ?_, ?_, ?_⟩ <;>
    norm_num [cAdm4, emitRes, buildAdmission, cDraws4, baseDraws]

theorem filter_hist_comm (l : List Admission) (pid : String) (date : Nat) :
    ((l.filter (fun p => p.patient_id == pid)).map histProj).filter
        (fun e => e.discharge_date < date) =
      (l.filter
        (fun p => p.patient_id == pid && decide (p.discharge_date < date))).map histProj := by
  induction l with
  | nil => rfl
  | cons x xs ih =>
      by_cases h1 : (x.patient_id == pid) = true
      · by_cases h2 : x.discharge_date < date
        · simp [List.filter_cons, h1, h2, histProj, ih]
        · simp [List.filter_cons, h1, h2, histProj, ih]
      · simp [List.filter_cons, h1, ih]

/-- C1: the flags and link of the admission emitted at iteration n are
exactly the readmission computation over S, the set of the patient's
previously generated admissions with a discharge date strictly before
the new admission date: S empty gives no flags and a null link;
otherwise, for a maximal-discharge element L of S, gap ≤ 30 sets both
flags with the link to L, 30 < gap ≤ 90 sets only readmission_flag
with the link, gap > 90 sets nothing; the link is non-null exactly when
readmission_flag is set. -/
theorem spec_C1_readmission {patients : List Patient} {hospitals : List Hospital}
    {departments : List Department} {draws : Nat → Draws} {n : Nat}
    {adms : List Admission} {h : History} {adms' : List Admission} {h' : History}
    (h1 : genRun patients hospitals departments draws n = .ok (adms, h))
    (h2 : genRun patients hospitals departments draws (n + 1) = .ok (adms', h')) :
    ∃ a, adms' = adms ++ [a] ∧
      (∀ S, S = adms.filter
          (fun p => p.patient_id == a.patient_id &&
            decide (p.discharge_date < a.admission_date)) →
        ((S = [] → a.readmission_flag = 0 ∧ a.readmission_within_30days = 0 ∧
            a.previous_admission_id = none) ∧
         (S ≠ [] → ∃ L ∈ S, (∀ p ∈ S, p.discharge_date ≤ L.discharge_date) ∧
            ((a.admission_date - L.discharge_date ≤ 30 →
                a.readmission_flag = 1 ∧ a.readmission_within_30days = 1 ∧
                a.previous_admission_id = some L.admission_id) ∧
             (30 < a.admission_date - L.discharge_date →
                a.admission_date - L.discharge_date ≤ 90 →
                a.readmission_flag = 1 ∧ a.readmission_within_30days = 0 ∧
                a.previous_admission_id = some L.admission_id) ∧
             (90 < a.admission_date - L.discharge_date →
                a.readmission_flag = 0 ∧ a.readmission_within_30days = 0 ∧
                a.previous_admission_id = none))))) ∧
      (a.previous_admission_id ≠ none ↔ a.readmission_flag = 1) := by
  obtain ⟨adms0, h0, a, hg, he, happ⟩ := genRun_succ_inv h2
  rw [h1] at hg
  have h3 := Except.ok.inj hg
  rw [Prod.mk.injEq] at h3
  obtain ⟨rfl, rfl⟩ := h3
  obtain ⟨patient, hpat, hospital, hhos, dept, hdept, cd, hcd, hpair⟩ := emit_ok_inv he
  have ha : a = (buildAdmission n patient hospital dept cd.1 cd.2 h (draws n)).1 :=
    congrArg Prod.fst hpair
  subst ha
  have hre := buildAdmission_readmission n patient hospital dept cd.1 cd.2 h (draws n)
  refine ⟨(buildAdmission n patient hospital dept cd.1 cd.2 h (draws n)).1, happ, ?_, ?_⟩
  · intro S hS
    rw [buildAdmission_patient_id] at hS
    have hl : (histAt h patient.patient_id).filter
        (fun e => e.discharge_date <
          (buildAdmission n patient hospital dept cd.1 cd.2 h (draws n)).1.admission_date) =
        S.map histProj := by
      rw [(genRun_invariants h1).2 patient.patient_id, filter_hist_comm, ← hS]
    rw [hl] at hre
    constructor
    · intro hSe
      rw [hSe] at hre
      rw [show (([] : List Admission).map histProj) = [] from rfl,
        computeReadmission_nil, ReadmissionInfo.mk.injEq] at hre
      exact hre
    · intro hSne
      have hlne : S.map histProj ≠ [] := by
        intro hmap
        exact hSne (List.map_eq_nil_iff.mp hmap)
      obtain ⟨L', hLmem, hLmax, hres⟩ :=
        computeReadmission_spec (S.map histProj)
          (buildAdmission n patient hospital dept cd.1 cd.2 h (draws n)).1.admission_date hlne
      obtain ⟨L, hLS, hLproj⟩ := List.mem_map.mp hLmem
      rw [hres, ← hLproj] at hre
      simp only [histProj] at hre
      refine ⟨L, hLS, ?_, ?_, ?_, ?_⟩
      · intro p hp
        have hmax := hLmax (histProj p) (List.mem_map_of_mem histProj hp)
        rw [← hLproj] at hmax
        exact hmax
      · intro h30
        rw [if_pos h30, ReadmissionInfo.mk.injEq] at hre
        exact hre
      · intro h30 h90
        rw [if_neg (by omega), if_pos h90, ReadmissionInfo.mk.injEq] at hre
        exact hre
      · intro h90
        rw [if_neg (by omega), if_neg (by omega), ReadmissionInfo.mk.injEq] at hre
        exact hre
  · have hprev := congrArg ReadmissionInfo.previous_admission_id hre
    have hflag := congrArg ReadmissionInfo.readmission_flag hre
    dsimp only at hprev hflag
    rw [hprev, hflag]
    exact computeReadmission_link_iff _ _

def wAdmC1 : Admission := (emitRes 0 (initHistory wPatients) baseDraws).1

def wHistC1 : History := (emitRes 0 (initHistory wPatients) baseDraws).2

/-- Witness for C1 at a concrete first iteration, whose S is empty. -/
theorem spec_C1_readmission_witness :
    wAdmC1.readmission_flag = 0 ∧ wAdmC1.readmission_within_30days = 0 ∧
    wAdmC1.previous_admission_id = none := by
  have h1 : genRun wPatients wHospitals wDepartments (fun _ => baseDraws) 0 =
      .ok ([], initHistory wPatients) := rfl
  have h2 : genRun wPatients wHospitals wDepartments (fun _ => baseDraws) 1 =
      .ok ([wAdmC1], wHistC1) := rfl
  obtain ⟨a, happ, hS, _⟩ := spec_C1_readmission h1 h2
  have haa : wAdmC1 = a := by
    have h4 : [wAdmC1] = [] ++ [a] := happ
    simpa using h4
  rw [haa]
  exact (hS _ rfl).1 rfl

/-- C2: the per-patient history map only grows across the run — a
longer run extends both the emitted admission list and every patient's
history entry, so later iterations never change an already-emitted
admission or shrink the map — and each iteration appends exactly the
new admission's (identifier, discharge date) pair to the emitting
patient's entry, leaving every other patient's entry unchanged; hence
an admission's readmission fields depend only on the history present
before its iteration. -/
theorem spec_C2_history (patients : List Patient) (hospitals : List Hospital)
    (departments : List Department) (draws : Nat → Draws) :
    (∀ (n m : Nat), n ≤ m →
      ∀ (admsN : List Admission) (hN : History) (admsM : List Admission) (hM : History),
        genRun patients hospitals departments draws n = .ok (admsN, hN) →
        genRun patients hospitals departments draws m = .ok (admsM, hM) →
        (admsN <+: admsM ∧ ∀ pid, histAt hN pid <+: histAt hM pid))
  ∧ (∀ (n : Nat) (adms : List Admission) (h : History) (adms' : List Admission)
        (h' : History),
        genRun patients hospitals departments draws n = .ok (adms, h) →
        genRun patients hospitals departments draws (n + 1) = .ok (adms', h') →
        ∃ a, adms' = adms ++ [a] ∧
          histAt h' a.patient_id = histAt h a.patient_id ++ [histProj a] ∧
          ∀ pid, pid ≠ a.patient_id → histAt h' pid = histAt h pid) := by
  constructor
  · intro n m hnm admsN hN admsM hM hn hm
    exact genRun_prefix hnm hn hm
  · intro n adms h adms' h' hn hsucc
    obtain ⟨adms0, h0, a, hg, he, happ⟩ := genRun_succ_inv hsucc
    rw [hn] at hg
    have h3 := Except.ok.inj hg
    rw [Prod.mk.injEq] at h3
    obtain ⟨rfl, rfl⟩ := h3
    obtain ⟨patient, hpat, hospital, hhos, dept, hdept, cd, hcd, hpair⟩ := emit_ok_inv he
    have ha : a = (buildAdmission n patient hospital dept cd.1 cd.2 h (draws n)).1 :=
      congrArg Prod.fst hpair
    have hpid : a.patient_id = patient.patient_id := by rw [ha]; rfl
    have hh' : h' = updateHist h a.patient_id (histProj a) := by
      have hh2 : h' = (buildAdmission n patient hospital dept cd.1 cd.2 h (draws n)).2 :=
        congrArg Prod.snd hpair
      rw [hh2, buildAdmission_snd, ← ha, ← hpid]
    have hsome : (h.lookup a.patient_id).isSome = true := by
      rw [hpid, (genRun_invariants hn).1]
      exact initHistory_lookup_isSome patients patient hpat
    refine ⟨a, happ, ?_, ?_⟩
    · rw [hh']
      exact histAt_updateHist_self h a.patient_id (histProj a) hsome
    · intro pid hne
      rw [hh']
      exact histAt_updateHist_ne h a.patient_id (histProj a) pid hne

def wAdmC2 : Admission := (emitRes 0 (initHistory wPatients) baseDraws).1

def wHistC2 : History := (emitRes 0 (initHistory wPatients) baseDraws).2

/-- Witness for C2 on a concrete zero-to-one-iteration step. -/
theorem spec_C2_history_witness :
    (([] : List Admission) <+: [wAdmC2] ∧
      histAt (initHistory wPatients) ("P10001") <+: histAt wHistC2 ("P10001")) ∧
    histAt wHistC2 wAdmC2.patient_id =
      histAt (initHistory wPatients) wAdmC2.patient_id ++ [histProj wAdmC2] := by
  have h0 : genRun wPatients wHospitals wDepartments (fun _ => baseDraws) 0 =
      .ok ([], initHistory wPatients) := rfl
  have h1 : genRun wPatients wHospitals wDepartments (fun _ => baseDraws) 1 =
      .ok ([wAdmC2], wHistC2) := rfl
  obtain ⟨hpfx, hhist⟩ :=
    (spec_C2_history wPatients wHospitals wDepartments (fun _ => baseDraws)).1 0 1
      (by omega) [] (initHistory wPatients) [wAdmC2] wHistC2 h0 h1
  obtain ⟨a, happ, happend, _⟩ :=
    (spec_C2_history wPatients wHospitals wDepartments (fun _ => baseDraws)).2 0
      [] (initHistory wPatients) [wAdmC2] wHistC2 h0 h1
  have haa : wAdmC2 = a := by
    have h4 : [wAdmC2] = [] ++ [a] := happ
    simpa using h4
  refine ⟨⟨hpfx, hhist ("P10001")⟩, ?_⟩
  rw [haa]
  exact happend

def d10a : Draws := { baseDraws with mortRoll := 0 }

def d10b : Draws := { baseDraws with admOffset := 110 }

def wDrawsC10 : Nat → Draws := fun n => if n = 0 then d10a else d10b

def w10a0 : Admission := (emitRes 0 (initHistory wPatients) d10a).1

def wH10 : History := (emitRes 0 (initHistory wPatients) d10a).2

def w10a1 : Admission := (emitRes 1 wH10 d10b).1

/-- C10: the history stores only (admission id, discharge date) pairs,
so readmission outputs are a function of prior admissions only through
those two fields — any two prior-admission lists with identical
per-patient projections (even if they differ in mortality flags or any
other field) yield identical readmission triples, and every emitted
admission's triple factors through that projection; moreover a patient
whose latest admission ended in mortality ("Expired") remains
selectable, and a concrete run links a new admission to the deceased
one as a 30-day readmission. -/
theorem spec_C10_noninterference :
    (∀ (l1 l2 : List Admission) (pid : String) (date : Nat),
      (l1.filter (fun p => p.patient_id == pid)).map histProj =
        (l2.filter (fun p => p.patient_id == pid)).map histProj →
      readmissionOfRun l1 pid date = readmissionOfRun l2 pid date)
  ∧ (∀ (patients : List Patient) (hospitals : List Hospital) (departments : List Department)
        (draws : Nat → Draws) (n : Nat) (adms : List Admission) (h : History)
        (adms' : List Admission) (h' : History),
      genRun patients hospitals departments draws n = .ok (adms, h) →
      genRun patients hospitals departments draws (n + 1) = .ok (adms', h') →
      ∃ a, adms' = adms ++ [a] ∧
        (⟨a.readmission_flag, a.readmission_within_30days, a.previous_admission_id⟩ :
            ReadmissionInfo) =
          readmissionOfRun adms a.patient_id a.admission_date)
  ∧ (generate_admissions wPatients wHospitals wDepartments 2 wDrawsC10 =
        .ok [w10a0, w10a1] ∧
      w10a0.mortality_flag = 1 ∧ w10a0.discharge_disposition = "Expired" ∧
      w10a1.patient_id = w10a0.patient_id ∧
      w10a1.readmission_flag = 1 ∧ w10a1.readmission_within_30days = 1 ∧
      w10a1.previous_admission_id = some w10a0.admission_id) := by
  refine ⟨?_, ?_, rfl, ?_, ?_, rfl, ?_, ?_, ?_⟩
  · intro l1 l2 pid date hagree
    rw [readmissionOfRun, readmissionOfRun, hagree]
  · intro patients hospitals departments draws n adms h adms' h' hn hsucc
    obtain ⟨adms0, h0, a, hg, he, happ⟩ := genRun_succ_inv hsucc
    rw [hn] at hg
    have h3 := Except.ok.inj hg
    rw [Prod.mk.injEq] at h3
    obtain ⟨rfl, rfl⟩ := h3
    obtain ⟨patient, hpat, hospital, hhos, dept, hdept, cd, hcd, hpair⟩ := emit_ok_inv he
    have ha : a = (buildAdmission n patient hospital dept cd.1 cd.2 h (draws n)).1 :=
      congrArg Prod.fst hpair
    subst ha
    have hre := buildAdmission_readmission n patient hospital dept cd.1 cd.2 h (draws n)
    refine ⟨(buildAdmission n patient hospital dept cd.1 cd.2 h (draws n)).1, happ, ?_⟩
    rw [readmissionOfRun, buildAdmission_patient_id,
      ← (genRun_invariants hn).2 patient.patient_id]
    exact hre
  · norm_num [w10a0, emitRes, buildAdmission, d10a, baseDraws]
  · norm_num [w10a0, emitRes, buildAdmission, d10a, baseDraws]
  · norm_num [w10a1, w10a0, wH10, emitRes, buildAdmission, d10a, d10b, baseDraws,
      initHistory, histAt, updateHist, computeReadmission, maxByDischarge, histProj,
      List.lookup, List.filter, List.foldl]
  · norm_num [w10a1, w10a0, wH10, emitRes, buildAdmission, d10a, d10b, baseDraws,
      initHistory, histAt, updateHist, computeReadmission, maxByDischarge, histProj,
      List.lookup, List.filter, List.foldl]
  · norm_num [w10a1, w10a0, wH10, emitRes, buildAdmission, d10a, d10b, baseDraws,
      initHistory, histAt, updateHist, computeReadmission, maxByDischarge, histProj,
      List.lookup, List.filter, List.foldl]

/-- Witness for C10: the noninterference part applied to two
prior-admission lists differing in the mortality flag, and the
factoring part applied to a concrete two-iteration run. -/
theorem spec_C10_noninterference_witness :
    readmissionOfRun [w10a0] ("P10001") 110 =
      readmissionOfRun [{ w10a0 with mortality_flag := 0 }] ("P10001") 110 ∧
    (⟨w10a1.readmission_flag, w10a1.readmission_within_30days,
        w10a1.previous_admission_id⟩ : ReadmissionInfo) =
      readmissionOfRun [w10a0] w10a1.patient_id w10a1.admission_date := by
  constructor
  · exact spec_C10_noninterference.1 [w10a0] [{ w10a0 with mortality_flag := 0 }]
      ("P10001") 110 rfl
  · have h1 : genRun wPatients wHospitals wDepartments wDrawsC10 1 =
        .ok ([w10a0], wH10) := rfl
    have h2 : genRun wPatients wHospitals wDepartments wDrawsC10 2 =
        .ok ([w10a0, w10a1], (emitRes 1 wH10 d10b).2) := rfl
    obtain ⟨a, happ, heq⟩ :=
      spec_C10_noninterference.2.1 wPatients wHospitals wDepartments wDrawsC10 1
        [w10a0] wH10 [w10a0, w10a1] (emitRes 1 wH10 d10b).2 h1 h2
    have haa : w10a1 = a := by
      have h4 : [w10a0, w10a1] = [w10a0] ++ [a] := happ
      simpa using h4
    rw [haa]
    exact heq

end HealthGen
